import Mathlib

/-!
Verification development for the color service of the `pomelli-solo`
repository (`backend/services/colors.py`) and its palette data model
(`backend/models/schemas.py`, class `ColorPalette`).

The Python functions are shallowly embedded as executable Lean functions:

* `rgb_to_hex`, `hex_to_rgb` — the hex/RGB conversion helpers;
* `is_neutral`, `saturation`, `luminance_key` — the heuristics;
* `classify_colors` — the palette classifier;
* `merge_palettes` — the palette merger.

Modelling conventions:

* Python machine integers are modelled as `Nat`/`Int`; `int(s, 16)` is
  modelled by `pyIntHexChars` (ASCII whitespace stripping, an optional
  sign, an optional `0x`/`0X` base marker, hex digits with single
  underscores between digits), and a raised `ValueError` by `none`.
* `calculate_luminance` returns the float `0.2126*r/255 + 0.7152*g/255 +
  0.0722*b/255` and is used only as a sort key for neutral colors.  It is
  modelled by the integer key `2126*r + 7152*g + 722*b` (the same value
  scaled by `2550000`), which induces the same ordering: the float
  evaluation error is below `1.5e-15` while distinct key values differ by
  at least `2/2550000 > 7.8e-7`, and no two distinct in-range neutral
  colors share the exact key (the lattice of solutions of
  `2126x + 7152y + 722z = 0` has no nonzero vector compatible with both
  colors having channel spread below 30).
* `list.sort(key=..)` / `list.sort(key=.., reverse=True)` are Python's
  stable sorts; they are modelled by `List.insertionSort` with the
  reflexive total relations `lumAsc` / `satDesc`, whose stable result
  coincides with the stable sort the source performs.
* `list(set(xs))` deduplicates, but CPython's set iteration order for
  strings depends on the per-process randomized string hash.  The
  development therefore embeds `merge_palettes` parameterized by the
  dedup function (`merge_palettes_with`), fixes the representative
  `pySet := List.dedup` for the executable `merge_palettes`, and proves
  order-independent facts for every dedup function satisfying the set
  contract (`IsSetDedup`).
-/

namespace Pomelli

/-- An RGB triple.  The Python code passes tuples of non-negative machine
integers (channel values); channels are `Nat` here. -/
def RGB : Type := Nat × Nat × Nat

instance : DecidableEq RGB := by unfold RGB; infer_instance

/-- Placeholder triple used as the (never inspected) default of guarded
list indexing in the embedding of `colors_rgb[i]`. -/
def rgb0 : RGB := (0, 0, 0)

/-! ### Hex formatting (`rgb_to_hex`, colors.py lines 14-16) -/

/-- Lower-case hex digit character for `n < 16`, as produced by Python's
`"{:02x}"` format before `.upper()` is applied. -/
def lhex (n : Nat) : Char := if n < 10 then Char.ofNat (48 + n) else Char.ofNat (87 + n)

/-- Upper-case hex digit character for `n < 16` (after `.upper()`). -/
def uhex (n : Nat) : Char := Char.toUpper (lhex n)

/-- Digit expansion worker, structurally recursive on a fuel argument so
that the kernel can evaluate it; `fuel = n + 1` always suffices since `n`
has at most `n + 1` digits. -/
def natHexDigitsAux : Nat → Nat → List Char
  | 0, _ => []
  | fuel + 1, n =>
    if n < 16 then [lhex n]
    else natHexDigitsAux fuel (n / 16) ++ [lhex (n % 16)]

/-- Lower-case hex digits of `n`, most significant first, no padding:
the digit expansion `"{:x}"` produces. -/
def natHexDigits (n : Nat) : List Char := natHexDigitsAux (n + 1) n

/-- Python's `"{:02x}"`: the hex expansion zero-padded to width at least 2. -/
def pyFormat02x (n : Nat) : List Char :=
  let ds := natHexDigits n
  List.replicate (2 - ds.length) '0' ++ ds

/-- `rgb_to_hex` (colors.py lines 14-16):
`f"#{rgb[0]:02x}{rgb[1]:02x}{rgb[2]:02x}".upper()`. -/
def rgb_to_hex (rgb : RGB) : String :=
  String.mk (('#' :: (pyFormat02x rgb.1 ++ pyFormat02x rgb.2.1 ++ pyFormat02x rgb.2.2)).map
    Char.toUpper)

/-! ### Hex parsing (`hex_to_rgb`, colors.py lines 19-22) -/

/-- ASCII whitespace accepted (and stripped) by Python's `int(s, 16)`. -/
def isPyWs (c : Char) : Bool :=
  c == ' ' || c == '\t' || c == '\n' || c == '\r' || c == '\x0b' || c == '\x0c'

/-- Value of a single hex digit character, `none` for non-digits. -/
def hexDigitVal (c : Char) : Option Nat :=
  if '0' ≤ c ∧ c ≤ '9' then some (c.toNat - 48)
  else if 'a' ≤ c ∧ c ≤ 'f' then some (c.toNat - 87)
  else if 'A' ≤ c ∧ c ≤ 'F' then some (c.toNat - 55)
  else none

/-- Hex digits with single underscores allowed between digits, continuing
the accumulated value `acc`; `none` on any malformed remainder. -/
def hexDigitsAux (acc : Nat) : List Char → Option Nat
  | [] => some acc
  | '_' :: c :: rest =>
    match hexDigitVal c with
    | some v => hexDigitsAux (16 * acc + v) rest
    | none => none
  | c :: rest =>
    match hexDigitVal c with
    | some v => hexDigitsAux (16 * acc + v) rest
    | none => none

/-- A non-empty run of hex digits (single underscores allowed between
digits); `none` when empty or malformed. -/
def hexDigitsNE : List Char → Option Nat
  | [] => none
  | c :: rest =>
    match hexDigitVal c with
    | some v => hexDigitsAux v rest
    | none => none

/-- Digit part of Python's `int(s, 16)` after sign handling: an optional
`0x`/`0X` base marker (optionally followed by one underscore), then
hex digits. -/
def parseHexBody : List Char → Option Nat
  | '0' :: 'x' :: '_' :: rest => hexDigitsNE rest
  | '0' :: 'x' :: rest => hexDigitsNE rest
  | '0' :: 'X' :: '_' :: rest => hexDigitsNE rest
  | '0' :: 'X' :: rest => hexDigitsNE rest
  | l => hexDigitsNE l

/-- Python's `int(s, 16)` on the character list of `s`: strip surrounding
ASCII whitespace, optional sign, optional base marker, hex digits.
`none` models the raised `ValueError`. -/
def pyIntHexChars (l : List Char) : Option Int :=
  let t := ((l.dropWhile isPyWs).reverse.dropWhile isPyWs).reverse
  match t with
  | '+' :: rest => (parseHexBody rest).map (fun n => (n : Int))
  | '-' :: rest => (parseHexBody rest).map (fun n => -(n : Int))
  | rest => (parseHexBody rest).map (fun n => (n : Int))

/-- `hex_to_rgb` (colors.py lines 19-22): `hex_color.lstrip("#")` (which
strips every leading `#`), then
`tuple(int(hex_color[i:i+2], 16) for i in (0, 2, 4))`.
A slice `[i:i+2]` past the end of the string is short or empty, exactly as
in Python; `none` models the `ValueError` raised by the first failing
`int` call. -/
def hex_to_rgb (hex_color : String) : Option (Int × Int × Int) :=
  let h := hex_color.toList.dropWhile (fun c => c == '#')
  match pyIntHexChars ((h.drop 0).take 2), pyIntHexChars ((h.drop 2).take 2),
      pyIntHexChars ((h.drop 4).take 2) with
  | some r, some g, some b => some (r, g, b)
  | _, _, _ => none

/-! ### Heuristics (colors.py lines 25-37 and 63-69) -/

/-- `calculate_luminance` (colors.py lines 25-29), rescaled to the integer
key `2126*r + 7152*g + 722*b = 2550000 * (0.2126*r/255 + 0.7152*g/255 +
0.0722*b/255)`; the rescaling is strictly monotone, so it induces the same
sort order (see the header note on float evaluation error). -/
def luminance_key (rgb : RGB) : Nat :=
  2126 * rgb.1 + 7152 * rgb.2.1 + 722 * rgb.2.2

/-- `is_neutral` (colors.py lines 32-37): spread of the channels below 30. -/
def is_neutral (rgb : RGB) : Bool :=
  decide (max (max rgb.1 rgb.2.1) rgb.2.2 - min (min rgb.1 rgb.2.1) rgb.2.2 < 30)

/-- The inner `saturation` key of `classify_colors` (colors.py lines 63-69):
the channel spread, an approximation of saturation. -/
def saturation (rgb : RGB) : Nat :=
  max (max rgb.1 rgb.2.1) rgb.2.2 - min (min rgb.1 rgb.2.1) rgb.2.2

/-- Order relation embedding `vibrant_colors.sort(key=saturation,
reverse=True)`: `x` may precede `y` when `y`'s saturation is at most
`x`'s.  Stable insertion sort along this relation equals Python's stable
descending sort. -/
def satDesc (x y : RGB) : Prop := saturation y ≤ saturation x

/-- Order relation embedding `neutral_colors.sort(key=calculate_luminance)`:
ascending luminance. -/
def lumAsc (x y : RGB) : Prop := luminance_key x ≤ luminance_key y

instance : DecidableRel satDesc := fun _ _ => Nat.decLe _ _

instance : DecidableRel lumAsc := fun _ _ => Nat.decLe _ _

instance : IsTotal RGB satDesc := ⟨fun a b => Nat.le_total (saturation b) (saturation a)⟩

instance : IsTrans RGB satDesc := ⟨fun _ _ _ h h' => Nat.le_trans h' h⟩

instance : IsTotal RGB lumAsc := ⟨fun _ _ => Nat.le_total _ _⟩

instance : IsTrans RGB lumAsc := ⟨fun _ _ _ h h' => Nat.le_trans h h'⟩

/-! ### The palette data model (schemas.py, class `ColorPalette`) -/

/-- `ColorPalette` (schemas.py): five role fields.  The pydantic model
performs no normalization of the string fields, so it is a plain record. -/
structure ColorPalette where
  primary : String
  secondary : String
  accent : String
  neutrals : List String
  all_colors : List String
deriving DecidableEq

/-! ### The classifier (`classify_colors`, colors.py lines 40-99) -/

/-- The fixed fallback palette returned for an empty input
(colors.py lines 45-53). -/
def fallback_palette : ColorPalette :=
  { primary := "#000000"
    secondary := "#FFFFFF"
    accent := "#CCCCCC"
    neutrals := ["#F5F5F5", "#333333"]
    all_colors := ["#000000", "#FFFFFF", "#CCCCCC", "#F5F5F5", "#333333"] }

/-- The `vibrant_colors` partition (colors.py lines 59-62): input order
preserved, exactly the non-neutral samples. -/
def vibrantOf (colors_rgb : List RGB) : List RGB :=
  colors_rgb.filter (fun c => !(is_neutral c))

/-- The `neutral_colors` partition (colors.py lines 59-62). -/
def neutralOf (colors_rgb : List RGB) : List RGB :=
  colors_rgb.filter (fun c => is_neutral c)

/-- `vibrant_colors` after `sort(key=saturation, reverse=True)`
(colors.py line 71). -/
def sortedVibrant (colors_rgb : List RGB) : List RGB :=
  List.insertionSort satDesc (vibrantOf colors_rgb)

/-- `neutral_colors` after `sort(key=calculate_luminance)`
(colors.py line 74). -/
def sortedNeutral (colors_rgb : List RGB) : List RGB :=
  List.insertionSort lumAsc (neutralOf colors_rgb)

/-- `primary_rgb` (colors.py line 77): first sorted vibrant color, else the
first input sample. -/
def primaryRGB (colors_rgb : List RGB) : RGB :=
  (sortedVibrant colors_rgb).headD (colors_rgb.headD rgb0)

/-- `secondary_rgb` (colors.py lines 78-80): second sorted vibrant if two
exist, else darkest neutral, else second input sample, else primary. -/
def secondaryRGB (colors_rgb : List RGB) : RGB :=
  let vs := sortedVibrant colors_rgb
  if 1 < vs.length then vs.getD 1 rgb0
  else
    match sortedNeutral colors_rgb with
    | n :: _ => n
    | [] =>
      if 1 < colors_rgb.length then colors_rgb.getD 1 rgb0
      else primaryRGB colors_rgb

/-- `accent_rgb` (colors.py lines 81-83): third sorted vibrant if three
exist, else second sorted vibrant if two exist, else primary. -/
def accentRGB (colors_rgb : List RGB) : RGB :=
  let vs := sortedVibrant colors_rgb
  if 2 < vs.length then vs.getD 2 rgb0
  else if 1 < vs.length then vs.getD 1 rgb0
  else primaryRGB colors_rgb

/-- `classify_colors` (colors.py lines 40-99). -/
def classify_colors (colors_rgb : List RGB) : ColorPalette :=
  if colors_rgb.isEmpty then fallback_palette
  else
    { primary := rgb_to_hex (primaryRGB colors_rgb)
      secondary := rgb_to_hex (secondaryRGB colors_rgb)
      accent := rgb_to_hex (accentRGB colors_rgb)
      neutrals := ((sortedNeutral colors_rgb).take 3).map rgb_to_hex
      all_colors := colors_rgb.map rgb_to_hex }

/-! ### The merger (`merge_palettes`, colors.py lines 168-183) -/

/-- Contract of `list(set(xs))` for any hash seed: the result is
duplicate-free and has the same members as `xs`. -/
def IsSetDedup (d : List String → List String) : Prop :=
  ∀ l : List String, (d l).Nodup ∧ ∀ x : String, x ∈ d l ↔ x ∈ l

/-- Representative embedding of `list(set(xs))`; CPython's actual
iteration order depends on the randomized string hash, so only
order-independent consequences transfer to every run (`IsSetDedup`
captures what every order satisfies). -/
def pySet (l : List String) : List String := l.dedup

/-- A second order a run of CPython may produce for `list(set(xs))`:
the reverse of `pySet`.  Used to witness the order dependence. -/
def pySetRev (l : List String) : List String := (pySet l).reverse

/-- `merge_palettes` (colors.py lines 168-183), parameterized by the
embedding of `list(set(..))`. -/
def merge_palettes_with (d : List String → List String) (palette1 palette2 : ColorPalette) :
    ColorPalette :=
  let all_colors := d (palette1.all_colors ++ palette2.all_colors)
  { primary := palette1.primary
    secondary := palette2.primary
    accent := palette1.accent
    neutrals := (d (palette1.neutrals ++ palette2.neutrals)).take 4
    all_colors := all_colors.take 12 }

/-- `merge_palettes` with the representative set order. -/
def merge_palettes : ColorPalette → ColorPalette → ColorPalette :=
  merge_palettes_with pySet

/-- The palette invariant stated in the spec's data model: the three roles
are members of `all_colors` whenever it is non-empty, and `neutrals` is a
subset of `all_colors`. -/
def PaletteInv (p : ColorPalette) : Prop :=
  (p.all_colors ≠ [] →
    p.primary ∈ p.all_colors ∧ p.secondary ∈ p.all_colors ∧ p.accent ∈ p.all_colors) ∧
  ∀ x ∈ p.neutrals, x ∈ p.all_colors

instance (p : ColorPalette) : Decidable (PaletteInv p) := by
  unfold PaletteInv; infer_instance

/-! ### Hex digit facts -/

/-- The sixteen upper-case hex digit characters `0`-`9`, `A`-`F`. -/
def upperHexChars : List Char := (List.range 16).map (fun n => uhex n)

/-- All twenty-two hexadecimal digit characters: `0`-`9`, `a`-`f` and
`A`-`F`. -/
def hexChars22 : List Char :=
  (List.range 16).map (fun n => lhex n) ++ (List.range 6).map (fun n => uhex (10 + n))

lemma natHexDigits_of_lt {n : Nat} (h : n < 16) : natHexDigits n = [lhex n] := by
  rw [natHexDigits, natHexDigitsAux, if_pos h]

lemma natHexDigits_of_byte {n : Nat} (h16 : 16 ≤ n) (h : n < 256) :
    natHexDigits n = [lhex (n / 16), lhex (n % 16)] := by
  obtain ⟨m, rfl⟩ : ∃ m, n = m + 1 := ⟨n - 1, by omega⟩
  rw [natHexDigits, natHexDigitsAux, if_neg (by omega), natHexDigitsAux,
    if_pos (by omega)]
  rfl

lemma pyFormat02x_upper {n : Nat} (h : n < 256) :
    (pyFormat02x n).map Char.toUpper = [uhex (n / 16), uhex (n % 16)] := by
  by_cases h16 : n < 16
  · have hd : n / 16 = 0 := Nat.div_eq_of_lt h16
    have hm : n % 16 = n := Nat.mod_eq_of_lt h16
    simp only [pyFormat02x, natHexDigits_of_lt h16, hd, hm]
    simp only [List.length_cons, List.length_nil, List.map_append, List.map_cons, List.map_nil]
    norm_num
    constructor
    · rfl
    · rfl
  · simp only [pyFormat02x, natHexDigits_of_byte (by omega) h]
    simp only [List.length_cons, List.length_nil]
    norm_num
    exact ⟨rfl, rfl⟩

lemma rgb_to_hex_byte {r g b : Nat} (hr : r < 256) (hg : g < 256) (hb : b < 256) :
    rgb_to_hex (r, g, b) =
      String.mk ['#', uhex (r / 16), uhex (r % 16), uhex (g / 16), uhex (g % 16),
        uhex (b / 16), uhex (b % 16)] := by
  simp only [rgb_to_hex, List.map_cons, List.map_append,
    pyFormat02x_upper hr, pyFormat02x_upper hg, pyFormat02x_upper hb]
  rfl

lemma uhex_mem_hex22 : ∀ d : Fin 16, uhex d.val ∈ hexChars22 := by decide

lemma uhex_mem_upper : ∀ d : Fin 16, uhex d.val ∈ upperHexChars := by decide

lemma upper_sub_hex22 : ∀ c ∈ upperHexChars, c ∈ hexChars22 := by decide

lemma hexDigitVal_uhex : ∀ d : Fin 16, (hexDigitVal (uhex d.val)).getD 0 = d.val := by decide

lemma hex22_ne_hash : ∀ c ∈ hexChars22, (c == '#') = false := by decide

lemma hex22_val_lt : ∀ c ∈ hexChars22, (hexDigitVal c).getD 0 < 16 := by decide

lemma upper_uhex_val : ∀ c ∈ upperHexChars, uhex ((hexDigitVal c).getD 0) = c := by decide

lemma pyIntHexChars_pair : ∀ a ∈ hexChars22, ∀ b ∈ hexChars22,
    pyIntHexChars [a, b] =
      some (((16 * (hexDigitVal a).getD 0 + (hexDigitVal b).getD 0 : Nat) : Int)) := by decide

lemma dropWhile_hash_append (pre l : List Char) (hpre : ∀ c ∈ pre, c = '#') :
    (pre ++ l).dropWhile (fun c => c == '#') = l.dropWhile (fun c => c == '#') := by
  induction pre with
  | nil => rfl
  | cons a pre ih =>
    have ha : a = '#' := hpre a (by simp)
    subst ha
    simpa using ih (fun c hc => hpre c (by simp [hc]))

/-- Behavior of `hex_to_rgb` on any string made of leading `#` signs
followed by exactly six hex digits: all the `#` signs are stripped and
the three digit pairs are parsed. -/
lemma hex_to_rgb_sixHex {c0 c1 c2 c3 c4 c5 : Char} (pre : List Char)
    (hpre : ∀ c ∈ pre, c = '#')
    (h0 : c0 ∈ hexChars22) (h1 : c1 ∈ hexChars22) (h2 : c2 ∈ hexChars22)
    (h3 : c3 ∈ hexChars22) (h4 : c4 ∈ hexChars22) (h5 : c5 ∈ hexChars22) :
    hex_to_rgb (String.mk (pre ++ [c0, c1, c2, c3, c4, c5])) =
      some (((16 * (hexDigitVal c0).getD 0 + (hexDigitVal c1).getD 0 : Nat) : Int),
            ((16 * (hexDigitVal c2).getD 0 + (hexDigitVal c3).getD 0 : Nat) : Int),
            ((16 * (hexDigitVal c4).getD 0 + (hexDigitVal c5).getD 0 : Nat) : Int)) := by
  have htl : (String.mk (pre ++ [c0, c1, c2, c3, c4, c5])).toList
      = pre ++ [c0, c1, c2, c3, c4, c5] := rfl
  simp only [hex_to_rgb, htl, dropWhile_hash_append pre _ hpre, List.dropWhile_cons,
    hex22_ne_hash c0 h0, Bool.false_eq_true, if_false, List.drop_zero, List.take_succ_cons,
    List.take_zero, List.drop_succ_cons, List.drop_nil, List.take_nil]
  rw [pyIntHexChars_pair c0 h0 c1 h1, pyIntHexChars_pair c2 h2 c3 h3,
    pyIntHexChars_pair c4 h4 c5 h5]

/-! ### C4: the empty-input fallback -/

/-- C4: `classify_colors` applied to the empty input sequence returns
exactly the fixed fallback palette: primary `#000000`, secondary
`#FFFFFF`, accent `#CCCCCC`, neutrals `[#F5F5F5, #333333]`, and
`all_colors` equal to those five hex values in that order. -/
theorem classify_colors_empty_fallback :
    classify_colors [] =
      { primary := "#000000"
        secondary := "#FFFFFF"
        accent := "#CCCCCC"
        neutrals := ["#F5F5F5", "#333333"]
        all_colors := ["#000000", "#FFFFFF", "#CCCCCC", "#F5F5F5", "#333333"] } := rfl

/-! ### C9: the neutrality threshold -/

/-- C9: for every RGB triple with channels in `[0,255]`, `is_neutral`
returns true if and only if `max(r,g,b) - min(r,g,b) < 30`. -/
theorem is_neutral_iff_spread (r g b : Nat) (hr : r ≤ 255) (hg : g ≤ 255) (hb : b ≤ 255) :
    is_neutral (r, g, b) = true ↔ max (max r g) b - min (min r g) b < 30 := by
  simp [is_neutral]

/-- Witness for C9, at the boundary inputs named by the claim:
`(100,100,129)` (spread 29) is neutral, `(100,100,131)` (spread 31) is
not. -/
theorem is_neutral_iff_spread_witness :
    is_neutral (100, 100, 129) = true ∧ is_neutral (100, 100, 131) ≠ true :=
  ⟨(is_neutral_iff_spread 100 100 129 (by decide) (by decide) (by decide)).mpr (by decide),
   fun h =>
    absurd ((is_neutral_iff_spread 100 100 131 (by decide) (by decide) (by decide)).mp h)
      (by decide)⟩

/-! ### C5: RGB-to-hex-to-RGB round trip -/

/-- C5: for every RGB triple `c` with each channel in `[0,255]`,
`hex_to_rgb (rgb_to_hex c)` returns `c` without error, and `rgb_to_hex c`
is a 7-character string: `#` followed by 6 upper-case, zero-padded hex
digits (2 per channel). -/
theorem rgb_hex_round_trip (r g b : Nat) (hr : r ≤ 255) (hg : g ≤ 255) (hb : b ≤ 255) :
    (rgb_to_hex (r, g, b)).length = 7 ∧
    (rgb_to_hex (r, g, b)).toList.head? = some '#' ∧
    (∀ c ∈ (rgb_to_hex (r, g, b)).toList.tail, c ∈ upperHexChars) ∧
    hex_to_rgb (rgb_to_hex (r, g, b)) = some ((r : Int), (g : Int), (b : Int)) := by
  have hr' : r < 256 := by omega
  have hg' : g < 256 := by omega
  have hb' : b < 256 := by omega
  rw [rgb_to_hex_byte hr' hg' hb']
  refine ⟨rfl, rfl, ?_, ?_⟩
  · intro c hc
    have : c = uhex (r / 16) ∨ c = uhex (r % 16) ∨ c = uhex (g / 16) ∨ c = uhex (g % 16) ∨
        c = uhex (b / 16) ∨ c = uhex (b % 16) := by simpa using hc
    rcases this with rfl | rfl | rfl | rfl | rfl | rfl
    · exact uhex_mem_upper ⟨r / 16, by omega⟩
    · exact uhex_mem_upper ⟨r % 16, by omega⟩
    · exact uhex_mem_upper ⟨g / 16, by omega⟩
    · exact uhex_mem_upper ⟨g % 16, by omega⟩
    · exact uhex_mem_upper ⟨b / 16, by omega⟩
    · exact uhex_mem_upper ⟨b % 16, by omega⟩
  · have key := hex_to_rgb_sixHex ['#'] (by simp)
      (uhex_mem_hex22 ⟨r / 16, by omega⟩) (uhex_mem_hex22 ⟨r % 16, by omega⟩)
      (uhex_mem_hex22 ⟨g / 16, by omega⟩) (uhex_mem_hex22 ⟨g % 16, by omega⟩)
      (uhex_mem_hex22 ⟨b / 16, by omega⟩) (uhex_mem_hex22 ⟨b % 16, by omega⟩)
    rw [show (['#'] : List Char) ++ [uhex (r / 16), uhex (r % 16), uhex (g / 16), uhex (g % 16),
        uhex (b / 16), uhex (b % 16)] = ['#', uhex (r / 16), uhex (r % 16), uhex (g / 16),
        uhex (g % 16), uhex (b / 16), uhex (b % 16)] from rfl] at key
    rw [key, hexDigitVal_uhex ⟨r / 16, by omega⟩, hexDigitVal_uhex ⟨r % 16, by omega⟩,
      hexDigitVal_uhex ⟨g / 16, by omega⟩, hexDigitVal_uhex ⟨g % 16, by omega⟩,
      hexDigitVal_uhex ⟨b / 16, by omega⟩, hexDigitVal_uhex ⟨b % 16, by omega⟩]
    have er : 16 * (r / 16) + r % 16 = r := by omega
    have eg : 16 * (g / 16) + g % 16 = g := by omega
    have eb : 16 * (b / 16) + b % 16 = b := by omega
    rw [er, eg, eb]

/-- Witness for C5 at the concrete triple `(255, 0, 171)`. -/
theorem rgb_hex_round_trip_witness :
    (rgb_to_hex (255, 0, 171)).length = 7 ∧
    hex_to_rgb (rgb_to_hex (255, 0, 171)) = some ((255 : Int), (0 : Int), (171 : Int)) ∧
    rgb_to_hex (255, 0, 171) = "#FF00AB" :=
  ⟨(rgb_hex_round_trip 255 0 171 (by omega) (by omega) (by omega)).1,
   (rgb_hex_round_trip 255 0 171 (by omega) (by omega) (by omega)).2.2.2,
   by decide⟩

/-! ### C10: hex-to-RGB-to-hex round trip on canonical strings -/

/-- C10: for every string consisting of `#` followed by exactly 6
upper-case hexadecimal digits, converting to RGB with `hex_to_rgb` and
back with `rgb_to_hex` is the identity. -/
theorem hex_rgb_reverse_round_trip (s : String) (t : List Char)
    (hs : s.toList = '#' :: t) (hlen : t.length = 6) (hup : ∀ c ∈ t, c ∈ upperHexChars) :
    (hex_to_rgb s).map (fun v => rgb_to_hex (v.1.toNat, v.2.1.toNat, v.2.2.toNat)) = some s := by
  obtain ⟨c0, c1, c2, c3, c4, c5, rfl⟩ :
      ∃ c0 c1 c2 c3 c4 c5, t = [c0, c1, c2, c3, c4, c5] := by
    rcases t with _ | ⟨c0, t⟩; · simp at hlen
    rcases t with _ | ⟨c1, t⟩; · simp at hlen
    rcases t with _ | ⟨c2, t⟩; · simp at hlen
    rcases t with _ | ⟨c3, t⟩; · simp at hlen
    rcases t with _ | ⟨c4, t⟩; · simp at hlen
    rcases t with _ | ⟨c5, t⟩; · simp at hlen
    rcases t with _ | ⟨c6, t⟩
    · exact ⟨c0, c1, c2, c3, c4, c5, rfl⟩
    · simp [List.length_cons] at hlen
  have h0 := hup c0 (by simp)
  have h1 := hup c1 (by simp)
  have h2 := hup c2 (by simp)
  have h3 := hup c3 (by simp)
  have h4 := hup c4 (by simp)
  have h5 := hup c5 (by simp)
  have v0lt := hex22_val_lt c0 (upper_sub_hex22 c0 h0)
  have v1lt := hex22_val_lt c1 (upper_sub_hex22 c1 h1)
  have v2lt := hex22_val_lt c2 (upper_sub_hex22 c2 h2)
  have v3lt := hex22_val_lt c3 (upper_sub_hex22 c3 h3)
  have v4lt := hex22_val_lt c4 (upper_sub_hex22 c4 h4)
  have v5lt := hex22_val_lt c5 (upper_sub_hex22 c5 h5)
  obtain ⟨l⟩ := s
  have hl : l = '#' :: [c0, c1, c2, c3, c4, c5] := hs
  subst hl
  have key := hex_to_rgb_sixHex ['#'] (by simp)
    (upper_sub_hex22 c0 h0) (upper_sub_hex22 c1 h1) (upper_sub_hex22 c2 h2)
    (upper_sub_hex22 c3 h3) (upper_sub_hex22 c4 h4) (upper_sub_hex22 c5 h5)
  rw [show (['#'] : List Char) ++ [c0, c1, c2, c3, c4, c5]
      = '#' :: [c0, c1, c2, c3, c4, c5] from rfl] at key
  rw [key, Option.map_some']
  have hrw : rgb_to_hex
      (((16 * (hexDigitVal c0).getD 0 + (hexDigitVal c1).getD 0 : Nat) : Int).toNat,
       ((16 * (hexDigitVal c2).getD 0 + (hexDigitVal c3).getD 0 : Nat) : Int).toNat,
       ((16 * (hexDigitVal c4).getD 0 + (hexDigitVal c5).getD 0 : Nat) : Int).toNat) =
      String.mk ['#', c0, c1, c2, c3, c4, c5] := by
    simp only [Int.toNat_natCast]
    rw [rgb_to_hex_byte (by omega) (by omega) (by omega)]
    have e0 : (16 * (hexDigitVal c0).getD 0 + (hexDigitVal c1).getD 0) / 16
        = (hexDigitVal c0).getD 0 := by omega
    have e1 : (16 * (hexDigitVal c0).getD 0 + (hexDigitVal c1).getD 0) % 16
        = (hexDigitVal c1).getD 0 := by omega
    have e2 : (16 * (hexDigitVal c2).getD 0 + (hexDigitVal c3).getD 0) / 16
        = (hexDigitVal c2).getD 0 := by omega
    have e3 : (16 * (hexDigitVal c2).getD 0 + (hexDigitVal c3).getD 0) % 16
        = (hexDigitVal c3).getD 0 := by omega
    have e4 : (16 * (hexDigitVal c4).getD 0 + (hexDigitVal c5).getD 0) / 16
        = (hexDigitVal c4).getD 0 := by omega
    have e5 : (16 * (hexDigitVal c4).getD 0 + (hexDigitVal c5).getD 0) % 16
        = (hexDigitVal c5).getD 0 := by omega
    rw [e0, e1, e2, e3, e4, e5, upper_uhex_val c0 h0, upper_uhex_val c1 h1,
      upper_uhex_val c2 h2, upper_uhex_val c3 h3, upper_uhex_val c4 h4, upper_uhex_val c5 h5]
  rw [hrw]

/-- Witness for C10 at the concrete canonical string `#00FFAB`. -/
theorem hex_rgb_reverse_round_trip_witness :
    (hex_to_rgb "#00FFAB").map (fun v => rgb_to_hex (v.1.toNat, v.2.1.toNat, v.2.2.toNat))
      = some "#00FFAB" :=
  hex_rgb_reverse_round_trip "#00FFAB" ['0', '0', 'F', 'F', 'A', 'B'] (by decide) (by decide)
    (by decide)

/-! ### C2: the shape check hex_to_rgb was claimed to perform -/

/-- The claim's string after stripping one leading `#` when present
(the code instead strips every leading `#`). -/
def stripOneHash (s : String) : List Char :=
  match s.toList with
  | '#' :: rest => rest
  | l => l

/-- Modelled from the claim's (and spec's) words, for comparison with the
code: the string is exactly 6 hexadecimal digits after stripping one
leading `#` when present. -/
def specSixHexShape (s : String) : Prop :=
  (stripOneHash s).length = 6 ∧ ∀ c ∈ stripOneHash s, c ∈ hexChars22

instance (s : String) : Decidable (specSixHexShape s) := by
  unfold specSixHexShape; infer_instance

/-- C2 counterexample: `"FFFFFFF"` is not exactly 6 hex digits after
stripping, yet `hex_to_rgb` succeeds (the seventh digit is silently
ignored), so "fails if and only if not exactly 6 hex digits" is false on
the code.  (The code also raises `ValueError`, never the claimed
`MalformedColorError`, which is defined nowhere in the repository.) -/
theorem hex_to_rgb_shape_cex :
    hex_to_rgb "FFFFFFF" = some ((255 : Int), (255 : Int), (255 : Int)) ∧
    ¬ specSixHexShape "FFFFFFF" := by
  constructor
  · decide
  · decide

/-- C2 amended: `hex_to_rgb` strips every leading `#` and parses the
character slices `[0:2)`, `[2:4)`, `[4:6)` with `int(.., 16)`, raising
`ValueError` (not a `MalformedColorError`, which the code does not
define) exactly when some slice fails to parse.  On exactly 6 hex digits
(with or without one leading `#`) it returns the corresponding triple
without error; but the failure condition is not the claimed shape check:
7 hex digits succeed with the seventh ignored, 5 hex digits succeed with
a one-digit blue channel, a doubled `#` is also stripped, while
non-digits and length-4 strings fail. -/
theorem hex_to_rgb_parse_behavior :
    (∀ c0 c1 c2 c3 c4 c5 : Char, c0 ∈ hexChars22 → c1 ∈ hexChars22 → c2 ∈ hexChars22 →
      c3 ∈ hexChars22 → c4 ∈ hexChars22 → c5 ∈ hexChars22 →
      hex_to_rgb (String.mk [c0, c1, c2, c3, c4, c5]) =
        some (((16 * (hexDigitVal c0).getD 0 + (hexDigitVal c1).getD 0 : Nat) : Int),
              ((16 * (hexDigitVal c2).getD 0 + (hexDigitVal c3).getD 0 : Nat) : Int),
              ((16 * (hexDigitVal c4).getD 0 + (hexDigitVal c5).getD 0 : Nat) : Int)) ∧
      hex_to_rgb (String.mk ('#' :: [c0, c1, c2, c3, c4, c5])) =
        some (((16 * (hexDigitVal c0).getD 0 + (hexDigitVal c1).getD 0 : Nat) : Int),
              ((16 * (hexDigitVal c2).getD 0 + (hexDigitVal c3).getD 0 : Nat) : Int),
              ((16 * (hexDigitVal c4).getD 0 + (hexDigitVal c5).getD 0 : Nat) : Int))) ∧
    hex_to_rgb "FFFFF" = some ((255 : Int), (255 : Int), (15 : Int)) ∧
    hex_to_rgb "##AABBCC" = some ((170 : Int), (187 : Int), (204 : Int)) ∧
    hex_to_rgb "GGGGGG" = none ∧
    hex_to_rgb "FFFF" = none := by
  refine ⟨?_, by decide, by decide, by decide, by decide⟩
  intro c0 c1 c2 c3 c4 c5 h0 h1 h2 h3 h4 h5
  constructor
  · exact hex_to_rgb_sixHex [] (by simp) h0 h1 h2 h3 h4 h5
  · exact hex_to_rgb_sixHex ['#'] (by simp) h0 h1 h2 h3 h4 h5

/-- Witness for the amended C2 at the concrete input `"A1B2C3"`. -/
theorem hex_to_rgb_parse_behavior_witness :
    hex_to_rgb "A1B2C3" = some ((161 : Int), (178 : Int), (195 : Int)) := by
  have h := hex_to_rgb_parse_behavior.1 'A' '1' 'B' '2' 'C' '3'
    (by decide) (by decide) (by decide) (by decide) (by decide) (by decide)
  exact h.1

/-! ### C6: merge role precedence -/

/-- C6: for every pair of palettes `a` (higher precedence) and `b`,
`merge_palettes a b` has primary `a.primary`, secondary `b.primary`
(`b`'s primary role, not `b`'s secondary), and accent `a.accent`. -/
theorem merge_palettes_roles (a b : ColorPalette) :
    (merge_palettes a b).primary = a.primary ∧
    (merge_palettes a b).secondary = b.primary ∧
    (merge_palettes a b).accent = a.accent :=
  ⟨rfl, rfl, rfl⟩

/-! ### C7: merge deduplication and caps -/

/-- C7: for every pair of palettes, the merged `neutrals` is the
deduplicated union of the inputs' neutrals truncated to at most 4
entries, the merged `all_colors` is the deduplicated union of the
inputs' `all_colors` truncated to at most 12 entries; both result lists
are duplicate-free, never exceed those lengths, draw only from the
respective unions, and are the whole deduplicated union whenever it fits
under the cap. -/
theorem merge_palettes_dedup_caps (a b : ColorPalette) :
    (merge_palettes a b).neutrals = (pySet (a.neutrals ++ b.neutrals)).take 4 ∧
    (merge_palettes a b).all_colors = (pySet (a.all_colors ++ b.all_colors)).take 12 ∧
    (merge_palettes a b).neutrals.Nodup ∧
    (merge_palettes a b).all_colors.Nodup ∧
    (merge_palettes a b).neutrals.length ≤ 4 ∧
    (merge_palettes a b).all_colors.length ≤ 12 ∧
    (∀ x ∈ (merge_palettes a b).neutrals, x ∈ a.neutrals ∨ x ∈ b.neutrals) ∧
    (∀ x ∈ (merge_palettes a b).all_colors, x ∈ a.all_colors ∨ x ∈ b.all_colors) ∧
    ((pySet (a.neutrals ++ b.neutrals)).length ≤ 4 →
      ∀ x, (x ∈ a.neutrals ∨ x ∈ b.neutrals) → x ∈ (merge_palettes a b).neutrals) ∧
    ((pySet (a.all_colors ++ b.all_colors)).length ≤ 12 →
      ∀ x, (x ∈ a.all_colors ∨ x ∈ b.all_colors) → x ∈ (merge_palettes a b).all_colors) := by
  refine ⟨rfl, rfl, ?_, ?_, ?_, ?_, ?_, ?_, ?_, ?_⟩
  · exact List.Nodup.sublist (List.take_sublist 4 _) (List.nodup_dedup _)
  · exact List.Nodup.sublist (List.take_sublist 12 _) (List.nodup_dedup _)
  · rw [show (merge_palettes a b).neutrals = (pySet (a.neutrals ++ b.neutrals)).take 4 from rfl,
      List.length_take]
    exact min_le_left _ _
  · rw [show (merge_palettes a b).all_colors
        = (pySet (a.all_colors ++ b.all_colors)).take 12 from rfl, List.length_take]
    exact min_le_left _ _
  · intro x hx
    exact List.mem_append.mp (List.mem_dedup.mp (List.mem_of_mem_take hx))
  · intro x hx
    exact List.mem_append.mp (List.mem_dedup.mp (List.mem_of_mem_take hx))
  · intro hlen x hx
    show x ∈ (pySet (a.neutrals ++ b.neutrals)).take 4
    rw [List.take_of_length_le hlen]
    exact List.mem_dedup.mpr (List.mem_append.mpr hx)
  · intro hlen x hx
    show x ∈ (pySet (a.all_colors ++ b.all_colors)).take 12
    rw [List.take_of_length_le hlen]
    exact List.mem_dedup.mpr (List.mem_append.mpr hx)

/-- Witness for C7 on the spec's merge-caps vector: palettes with 10
distinct neutrals and 20 distinct `all_colors` in total respect both
caps. -/
theorem merge_palettes_dedup_caps_witness :
    (merge_palettes
      ⟨"#000001", "#000002", "#000003",
        ["#N00000", "#N10000", "#N20000", "#N30000", "#N40000", "#N50000"],
        ["#C00000", "#C01000", "#C02000", "#C03000", "#C04000",
         "#C05000", "#C06000", "#C07000", "#C08000", "#C09000"]⟩
      ⟨"#000004", "#000005", "#000006",
        ["#N60000", "#N70000", "#N80000", "#N90000"],
        ["#C10000", "#C11000", "#C12000", "#C13000", "#C14000",
         "#C15000", "#C16000", "#C17000", "#C18000", "#C19000"]⟩).neutrals.length ≤ 4 ∧
    (merge_palettes
      ⟨"#000001", "#000002", "#000003",
        ["#N00000", "#N10000", "#N20000", "#N30000", "#N40000", "#N50000"],
        ["#C00000", "#C01000", "#C02000", "#C03000", "#C04000",
         "#C05000", "#C06000", "#C07000", "#C08000", "#C09000"]⟩
      ⟨"#000004", "#000005", "#000006",
        ["#N60000", "#N70000", "#N80000", "#N90000"],
        ["#C10000", "#C11000", "#C12000", "#C13000", "#C14000",
         "#C15000", "#C16000", "#C17000", "#C18000", "#C19000"]⟩).all_colors.length ≤ 12 :=
  ⟨(merge_palettes_dedup_caps _ _).2.2.2.2.1, (merge_palettes_dedup_caps _ _).2.2.2.2.2.1⟩

/-! ### Membership facts about the classifier's role selection -/

lemma getD_mem {α : Type _} : ∀ (l : List α) (n : Nat) (d : α), n < l.length → l.getD n d ∈ l
  | a :: l, 0, _, _ => List.mem_cons_self a l
  | a :: l, n + 1, d, h => List.mem_cons_of_mem a (getD_mem l n d (by simpa using h))

lemma mem_sortedVibrant {c : RGB} {l : List RGB} (h : c ∈ sortedVibrant l) : c ∈ l :=
  List.mem_of_mem_filter ((List.perm_insertionSort satDesc (vibrantOf l)).subset h)

lemma mem_sortedNeutral {c : RGB} {l : List RGB} (h : c ∈ sortedNeutral l) : c ∈ l :=
  List.mem_of_mem_filter ((List.perm_insertionSort lumAsc (neutralOf l)).subset h)

lemma headD_mem {l : List RGB} (h : l ≠ []) (d : RGB) : l.headD d ∈ l := by
  cases l with
  | nil => exact absurd rfl h
  | cons a t => exact List.mem_cons_self a t

lemma primaryRGB_mem {l : List RGB} (h : l ≠ []) : primaryRGB l ∈ l := by
  unfold primaryRGB
  cases hv : sortedVibrant l with
  | nil => simpa using headD_mem h rgb0
  | cons v vs =>
    simp only [List.headD_cons]
    exact mem_sortedVibrant (hv ▸ List.mem_cons_self v vs)

lemma secondaryRGB_mem {l : List RGB} (h : l ≠ []) : secondaryRGB l ∈ l := by
  unfold secondaryRGB
  by_cases h1 : 1 < (sortedVibrant l).length
  · rw [if_pos h1]
    exact mem_sortedVibrant (getD_mem _ 1 rgb0 h1)
  · rw [if_neg h1]
    cases hn : sortedNeutral l with
    | cons n ns =>
      have hmem : n ∈ sortedNeutral l := by
        rw [hn]
        exact List.mem_cons_self n ns
      exact mem_sortedNeutral hmem
    | nil =>
      show (if 1 < l.length then l.getD 1 rgb0 else primaryRGB l) ∈ l
      by_cases h2 : 1 < l.length
      · rw [if_pos h2]
        exact getD_mem l 1 rgb0 h2
      · rw [if_neg h2]
        exact primaryRGB_mem h

lemma accentRGB_mem {l : List RGB} (h : l ≠ []) : accentRGB l ∈ l := by
  unfold accentRGB
  by_cases h2 : 2 < (sortedVibrant l).length
  · rw [if_pos h2]
    exact mem_sortedVibrant (getD_mem _ 2 rgb0 h2)
  · rw [if_neg h2]
    by_cases h1 : 1 < (sortedVibrant l).length
    · rw [if_pos h1]
      exact mem_sortedVibrant (getD_mem _ 1 rgb0 h1)
    · rw [if_neg h1]
      exact primaryRGB_mem h

/-! ### C1: the palette invariant -/

/-- C1 counterexample: both inputs satisfy the palette invariant (the
first vacuously, with empty `all_colors`), yet the merged palette
violates it: its `all_colors` is non-empty but its primary
(`palette1.primary`) is not among the merged colors. -/
theorem palette_invariant_cex :
    PaletteInv ⟨"#123456", "#123456", "#123456", [], []⟩ ∧
    PaletteInv ⟨"#AAAAAA", "#AAAAAA", "#AAAAAA", [], ["#AAAAAA"]⟩ ∧
    ¬ PaletteInv (merge_palettes ⟨"#123456", "#123456", "#123456", [], []⟩
        ⟨"#AAAAAA", "#AAAAAA", "#AAAAAA", [], ["#AAAAAA"]⟩) :=
  ⟨by decide, by decide, by decide⟩

/-- C1 amended: every palette returned by `classify_colors` satisfies the
invariant; `merge_palettes` preserves it provided both inputs satisfy it,
both inputs have non-empty `all_colors`, and the deduplicated union of
their `all_colors` has at most 12 entries (so the cap does not drop any
color).  Without these extra conditions the merged palette can violate
the invariant. -/
theorem palette_invariant :
    (∀ l : List RGB, PaletteInv (classify_colors l)) ∧
    (∀ a b : ColorPalette, PaletteInv a → PaletteInv b →
      a.all_colors ≠ [] → b.all_colors ≠ [] →
      (pySet (a.all_colors ++ b.all_colors)).length ≤ 12 →
      PaletteInv (merge_palettes a b)) := by
  constructor
  · intro l
    by_cases hl : l.isEmpty
    · have : l = [] := by simpa using hl
      subst this
      decide
    · have hne : l ≠ [] := by simpa using hl
      rw [show classify_colors l = if l.isEmpty then fallback_palette else
          { primary := rgb_to_hex (primaryRGB l)
            secondary := rgb_to_hex (secondaryRGB l)
            accent := rgb_to_hex (accentRGB l)
            neutrals := ((sortedNeutral l).take 3).map rgb_to_hex
            all_colors := l.map rgb_to_hex } from rfl, if_neg hl]
      constructor
      · intro _
        exact ⟨List.mem_map_of_mem rgb_to_hex (primaryRGB_mem hne),
          List.mem_map_of_mem rgb_to_hex (secondaryRGB_mem hne),
          List.mem_map_of_mem rgb_to_hex (accentRGB_mem hne)⟩
      · intro x hx
        obtain ⟨c, hc, rfl⟩ := List.mem_map.mp hx
        exact List.mem_map_of_mem rgb_to_hex (mem_sortedNeutral (List.mem_of_mem_take hc))
  · intro a b inva invb ha hb h12
    have hall : (merge_palettes a b).all_colors = pySet (a.all_colors ++ b.all_colors) := by
      show (pySet (a.all_colors ++ b.all_colors)).take 12 = _
      exact List.take_of_length_le h12
    constructor
    · intro _
      obtain ⟨hap, _, haa⟩ := inva.1 ha
      obtain ⟨hbp, _, _⟩ := invb.1 hb
      refine ⟨?_, ?_, ?_⟩
      · show a.primary ∈ (merge_palettes a b).all_colors
        rw [hall]
        exact List.mem_dedup.mpr (List.mem_append.mpr (Or.inl hap))
      · show b.primary ∈ (merge_palettes a b).all_colors
        rw [hall]
        exact List.mem_dedup.mpr (List.mem_append.mpr (Or.inr hbp))
      · show a.accent ∈ (merge_palettes a b).all_colors
        rw [hall]
        exact List.mem_dedup.mpr (List.mem_append.mpr (Or.inl haa))
    · intro x hx
      rw [hall]
      have : x ∈ a.neutrals ∨ x ∈ b.neutrals :=
        List.mem_append.mp (List.mem_dedup.mp (List.mem_of_mem_take hx))
      rcases this with h | h
      · exact List.mem_dedup.mpr (List.mem_append.mpr (Or.inl (inva.2 x h)))
      · exact List.mem_dedup.mpr (List.mem_append.mpr (Or.inr (invb.2 x h)))

/-- Witness for the amended C1: a one-sample classification and a merge
of two concrete invariant-satisfying palettes whose color union fits
under the cap. -/
theorem palette_invariant_witness :
    PaletteInv (classify_colors [(10, 200, 30)]) ∧
    PaletteInv (merge_palettes
      ⟨"#111111", "#222222", "#333333", ["#444444"],
        ["#111111", "#222222", "#333333", "#444444"]⟩
      ⟨"#AAAAAA", "#BBBBBB", "#CCCCCC", [], ["#AAAAAA", "#BBBBBB", "#CCCCCC"]⟩) :=
  ⟨palette_invariant.1 [(10, 200, 30)],
   palette_invariant.2 _ _ (by decide) (by decide) (by decide) (by decide) (by decide)⟩

/-! ### C8: determinism -/

lemma pySet_isSetDedup : IsSetDedup pySet :=
  fun l => ⟨List.nodup_dedup l, fun _ => List.mem_dedup⟩

lemma pySetRev_isSetDedup : IsSetDedup pySetRev :=
  fun l => ⟨(List.nodup_reverse).mpr (List.nodup_dedup l),
    fun x => by simp [pySetRev, pySet, List.mem_reverse, List.mem_dedup]⟩

/-- Any two deduplications of the same list that satisfy the set contract
have the same length (they enumerate the same finite set without
repetition). -/
lemma setDedup_length_eq {d₁ d₂ : List String → List String}
    (h₁ : IsSetDedup d₁) (h₂ : IsSetDedup d₂) (l : List String) :
    (d₁ l).length = (d₂ l).length := by
  have hfin : (d₁ l).toFinset = (d₂ l).toFinset := by
    apply Finset.ext
    intro x
    simp only [List.mem_toFinset]
    rw [(h₁ l).2 x, (h₂ l).2 x]
  calc (d₁ l).length = (d₁ l).toFinset.card := (List.toFinset_card_of_nodup (h₁ l).1).symm
    _ = (d₂ l).toFinset.card := by rw [hfin]
    _ = (d₂ l).length := List.toFinset_card_of_nodup (h₂ l).1

/-- C8 counterexample: the two set orders `pySet` and its reverse both
satisfy the contract of `list(set(..))` — the code's output order is
whichever the interpreter's hash seed produces — yet they give different
merged palettes for the same pair of inputs.  The list order of
`merge_palettes`' output is therefore not a function of the inputs
alone, contradicting the claim that two runs always yield identical
results including the order of the deduplicated lists. -/
theorem merge_determinism_cex :
    pySet (["#AAAAAA", "#BBBBBB"] ++ ["#AAAAAA", "#BBBBBB"]) = ["#AAAAAA", "#BBBBBB"] ∧
    pySetRev (["#AAAAAA", "#BBBBBB"] ++ ["#AAAAAA", "#BBBBBB"]) = ["#BBBBBB", "#AAAAAA"] ∧
    merge_palettes_with pySet
        ⟨"#111111", "#111111", "#111111", [], ["#AAAAAA", "#BBBBBB"]⟩
        ⟨"#111111", "#111111", "#111111", [], ["#AAAAAA", "#BBBBBB"]⟩ ≠
      merge_palettes_with pySetRev
        ⟨"#111111", "#111111", "#111111", [], ["#AAAAAA", "#BBBBBB"]⟩
        ⟨"#111111", "#111111", "#111111", [], ["#AAAAAA", "#BBBBBB"]⟩ :=
  ⟨by decide, by decide, by decide⟩

/-- C8 amended: `classify_colors` is deterministic (equal input
sequences give equal palettes — it is a pure function of its input), and
the roles of `merge_palettes` together with the lengths of its result
lists are determined by the inputs for every set order satisfying the
`list(set(..))` contract; the order (and, under cap truncation, the
choice) of the entries of `neutrals` and `all_colors` additionally
depends on the interpreter's hash-based set iteration order and may
differ between interpreter runs. -/
theorem merge_determinism :
    (∀ l₁ l₂ : List RGB, l₁ = l₂ → classify_colors l₁ = classify_colors l₂) ∧
    (∀ d₁ d₂ : List String → List String, IsSetDedup d₁ → IsSetDedup d₂ →
      ∀ a b : ColorPalette,
      (merge_palettes_with d₁ a b).primary = (merge_palettes_with d₂ a b).primary ∧
      (merge_palettes_with d₁ a b).secondary = (merge_palettes_with d₂ a b).secondary ∧
      (merge_palettes_with d₁ a b).accent = (merge_palettes_with d₂ a b).accent ∧
      (merge_palettes_with d₁ a b).neutrals.length
        = (merge_palettes_with d₂ a b).neutrals.length ∧
      (merge_palettes_with d₁ a b).all_colors.length
        = (merge_palettes_with d₂ a b).all_colors.length) := by
  constructor
  · intro l₁ l₂ h
    rw [h]
  · intro d₁ d₂ h₁ h₂ a b
    refine ⟨rfl, rfl, rfl, ?_, ?_⟩
    · show ((d₁ (a.neutrals ++ b.neutrals)).take 4).length
        = ((d₂ (a.neutrals ++ b.neutrals)).take 4).length
      rw [List.length_take, List.length_take, setDedup_length_eq h₁ h₂]
    · show ((d₁ (a.all_colors ++ b.all_colors)).take 12).length
        = ((d₂ (a.all_colors ++ b.all_colors)).take 12).length
      rw [List.length_take, List.length_take, setDedup_length_eq h₁ h₂]

/-- Witness for the amended C8 at concrete inputs, with both set orders
instantiated to contract-satisfying functions. -/
theorem merge_determinism_witness :
    classify_colors [(1, 2, 3)] = classify_colors [(1, 2, 3)] ∧
    (merge_palettes_with pySet
        ⟨"#111111", "#222222", "#333333", ["#444444"], ["#111111"]⟩
        ⟨"#AAAAAA", "#BBBBBB", "#CCCCCC", [], ["#AAAAAA"]⟩).neutrals.length =
      (merge_palettes_with pySetRev
        ⟨"#111111", "#222222", "#333333", ["#444444"], ["#111111"]⟩
        ⟨"#AAAAAA", "#BBBBBB", "#CCCCCC", [], ["#AAAAAA"]⟩).neutrals.length :=
  ⟨merge_determinism.1 [(1, 2, 3)] [(1, 2, 3)] rfl,
   (merge_determinism.2 pySet pySetRev pySet_isSetDedup pySetRev_isSetDedup _ _).2.2.2.1⟩

/-! ### C3: the role-assignment algorithm -/

lemma sortedVibrant_length (l : List RGB) :
    (sortedVibrant l).length = (vibrantOf l).length :=
  (List.perm_insertionSort satDesc (vibrantOf l)).length_eq

lemma sortedNeutral_length (l : List RGB) :
    (sortedNeutral l).length = (neutralOf l).length :=
  (List.perm_insertionSort lumAsc (neutralOf l)).length_eq

/-- The head of the saturation-sorted vibrant list attains the maximal
saturation among the vibrant samples. -/
lemma sortedVibrant_head_max {l : List RGB} {v : RGB} {vs : List RGB}
    (h : sortedVibrant l = v :: vs) : ∀ c ∈ vibrantOf l, saturation c ≤ saturation v := by
  intro c hc
  have hc' : c ∈ v :: vs := by
    rw [← h]
    exact (List.perm_insertionSort satDesc (vibrantOf l)).mem_iff.mpr hc
  have hsorted : List.Sorted satDesc (v :: vs) := by
    rw [← h]
    exact List.sorted_insertionSort satDesc (vibrantOf l)
  rcases List.mem_cons.mp hc' with rfl | hmem
  · exact le_refl _
  · exact List.rel_of_sorted_cons hsorted c hmem

/-- The head of the luminance-sorted neutral list attains the minimal
luminance key among the neutral samples. -/
lemma sortedNeutral_head_min {l : List RGB} {n : RGB} {ns : List RGB}
    (h : sortedNeutral l = n :: ns) :
    ∀ c ∈ neutralOf l, luminance_key n ≤ luminance_key c := by
  intro c hc
  have hc' : c ∈ n :: ns := by
    rw [← h]
    exact (List.perm_insertionSort lumAsc (neutralOf l)).mem_iff.mpr hc
  have hsorted : List.Sorted lumAsc (n :: ns) := by
    rw [← h]
    exact List.sorted_insertionSort lumAsc (neutralOf l)
  rcases List.mem_cons.mp hc' with rfl | hmem
  · exact le_refl _
  · exact List.rel_of_sorted_cons hsorted c hmem

lemma classify_colors_of_ne_nil {l : List RGB} (h : l ≠ []) :
    classify_colors l =
      { primary := rgb_to_hex (primaryRGB l)
        secondary := rgb_to_hex (secondaryRGB l)
        accent := rgb_to_hex (accentRGB l)
        neutrals := ((sortedNeutral l).take 3).map rgb_to_hex
        all_colors := l.map rgb_to_hex } := by
  rw [classify_colors, if_neg (by simpa using h)]

lemma vibrantOf_nil_sorted {l : List RGB} (h : vibrantOf l = []) : sortedVibrant l = [] := by
  rw [sortedVibrant, h]
  rfl

lemma neutralOf_nil_sorted {l : List RGB} (h : neutralOf l = []) : sortedNeutral l = [] := by
  rw [sortedNeutral, h]
  rfl

lemma primaryRGB_of_vibrant {l : List RGB} (hv : vibrantOf l ≠ []) :
    primaryRGB l ∈ vibrantOf l ∧
    ∀ c ∈ vibrantOf l, saturation c ≤ saturation (primaryRGB l) := by
  cases hsv : sortedVibrant l with
  | nil =>
    exact absurd (List.length_eq_zero.mp (by rw [← sortedVibrant_length, hsv]; rfl)) hv
  | cons v vs =>
    have hp : primaryRGB l = v := by
      unfold primaryRGB
      rw [hsv]
      rfl
    rw [hp]
    constructor
    · have hmem : v ∈ sortedVibrant l := by
        rw [hsv]
        exact List.mem_cons_self v vs
      exact (List.perm_insertionSort satDesc (vibrantOf l)).subset hmem
    · exact sortedVibrant_head_max hsv

lemma primaryRGB_of_no_vibrant {l : List RGB} (hv : vibrantOf l = []) :
    primaryRGB l = l.headD rgb0 := by
  unfold primaryRGB
  rw [vibrantOf_nil_sorted hv]
  rfl

lemma secondaryRGB_of_two_vibrant {l : List RGB} (h2 : 2 ≤ (vibrantOf l).length) :
    secondaryRGB l = (sortedVibrant l).getD 1 rgb0 := by
  have h1 : 1 < (sortedVibrant l).length := by
    rw [sortedVibrant_length]
    omega
  simp only [secondaryRGB]
  rw [if_pos h1]

lemma secondaryRGB_of_neutral {l : List RGB} (h2 : (vibrantOf l).length < 2)
    (hn : neutralOf l ≠ []) :
    secondaryRGB l ∈ neutralOf l ∧
    ∀ c ∈ neutralOf l, luminance_key (secondaryRGB l) ≤ luminance_key c := by
  have h1 : ¬ 1 < (sortedVibrant l).length := by
    rw [sortedVibrant_length]
    omega
  cases hsn : sortedNeutral l with
  | nil =>
    exact absurd (List.length_eq_zero.mp (by rw [← sortedNeutral_length, hsn]; rfl)) hn
  | cons n ns =>
    have hs : secondaryRGB l = n := by
      simp only [secondaryRGB]
      rw [if_neg h1, hsn]
    rw [hs]
    constructor
    · have hmem : n ∈ sortedNeutral l := by
        rw [hsn]
        exact List.mem_cons_self n ns
      exact (List.perm_insertionSort lumAsc (neutralOf l)).subset hmem
    · exact sortedNeutral_head_min hsn

lemma secondaryRGB_of_two_colors {l : List RGB} (h2 : (vibrantOf l).length < 2)
    (hn : neutralOf l = []) (hlen : 2 ≤ l.length) :
    secondaryRGB l = l.getD 1 rgb0 := by
  have h1 : ¬ 1 < (sortedVibrant l).length := by
    rw [sortedVibrant_length]
    omega
  simp only [secondaryRGB]
  rw [if_neg h1, neutralOf_nil_sorted hn]
  show (if 1 < l.length then l.getD 1 rgb0 else primaryRGB l) = l.getD 1 rgb0
  rw [if_pos (by omega)]

lemma secondaryRGB_of_single {l : List RGB} (h2 : (vibrantOf l).length < 2)
    (hn : neutralOf l = []) (hlen : l.length < 2) :
    secondaryRGB l = primaryRGB l := by
  have h1 : ¬ 1 < (sortedVibrant l).length := by
    rw [sortedVibrant_length]
    omega
  simp only [secondaryRGB]
  rw [if_neg h1, neutralOf_nil_sorted hn]
  show (if 1 < l.length then l.getD 1 rgb0 else primaryRGB l) = primaryRGB l
  rw [if_neg (by omega)]

lemma accentRGB_of_three {l : List RGB} (h3 : 3 ≤ (vibrantOf l).length) :
    accentRGB l = (sortedVibrant l).getD 2 rgb0 := by
  have h2 : 2 < (sortedVibrant l).length := by
    rw [sortedVibrant_length]
    omega
  simp only [accentRGB]
  rw [if_pos h2]

lemma accentRGB_of_two {l : List RGB} (he : (vibrantOf l).length = 2) :
    accentRGB l = (sortedVibrant l).getD 1 rgb0 := by
  have h2 : ¬ 2 < (sortedVibrant l).length := by
    rw [sortedVibrant_length]
    omega
  have h1 : 1 < (sortedVibrant l).length := by
    rw [sortedVibrant_length]
    omega
  simp only [accentRGB]
  rw [if_neg h2, if_pos h1]

lemma accentRGB_of_lt_two {l : List RGB} (hlt : (vibrantOf l).length < 2) :
    accentRGB l = primaryRGB l := by
  have h2 : ¬ 2 < (sortedVibrant l).length := by
    rw [sortedVibrant_length]
    omega
  have h1 : ¬ 1 < (sortedVibrant l).length := by
    rw [sortedVibrant_length]
    omega
  simp only [accentRGB]
  rw [if_neg h2, if_neg h1]

/-- C3: for every non-empty input sequence, `classify_colors` assigns
roles by partitioning into vibrant (non-neutral) and neutral samples,
sorting vibrant by the saturation proxy descending: primary is the most
saturated vibrant sample, else the first sample of the original
sequence; secondary is the second sorted vibrant if there are at least 2
vibrants, else the lowest-luminance neutral if any neutral exists, else
the second original sample if the input has at least 2 samples, else
primary; accent is the third sorted vibrant if there are at least 3,
else the second if there are at least 2, else primary; each is converted
to hex in the returned palette. -/
theorem classify_colors_roles (colors_rgb : List RGB) (h : colors_rgb ≠ []) :
    ((vibrantOf colors_rgb ≠ [] →
        primaryRGB colors_rgb ∈ vibrantOf colors_rgb ∧
        ∀ c ∈ vibrantOf colors_rgb, saturation c ≤ saturation (primaryRGB colors_rgb)) ∧
      (vibrantOf colors_rgb = [] → primaryRGB colors_rgb = colors_rgb.headD rgb0)) ∧
    ((2 ≤ (vibrantOf colors_rgb).length →
        secondaryRGB colors_rgb = (sortedVibrant colors_rgb).getD 1 rgb0) ∧
      ((vibrantOf colors_rgb).length < 2 → neutralOf colors_rgb ≠ [] →
        secondaryRGB colors_rgb ∈ neutralOf colors_rgb ∧
        ∀ c ∈ neutralOf colors_rgb,
          luminance_key (secondaryRGB colors_rgb) ≤ luminance_key c) ∧
      ((vibrantOf colors_rgb).length < 2 → neutralOf colors_rgb = [] →
        2 ≤ colors_rgb.length → secondaryRGB colors_rgb = colors_rgb.getD 1 rgb0) ∧
      ((vibrantOf colors_rgb).length < 2 → neutralOf colors_rgb = [] →
        colors_rgb.length < 2 → secondaryRGB colors_rgb = primaryRGB colors_rgb)) ∧
    ((3 ≤ (vibrantOf colors_rgb).length →
        accentRGB colors_rgb = (sortedVibrant colors_rgb).getD 2 rgb0) ∧
      ((vibrantOf colors_rgb).length = 2 →
        accentRGB colors_rgb = (sortedVibrant colors_rgb).getD 1 rgb0) ∧
      ((vibrantOf colors_rgb).length < 2 →
        accentRGB colors_rgb = primaryRGB colors_rgb)) ∧
    (classify_colors colors_rgb).primary = rgb_to_hex (primaryRGB colors_rgb) ∧
    (classify_colors colors_rgb).secondary = rgb_to_hex (secondaryRGB colors_rgb) ∧
    (classify_colors colors_rgb).accent = rgb_to_hex (accentRGB colors_rgb) := by
  rw [classify_colors_of_ne_nil h]
  exact ⟨⟨fun hv => primaryRGB_of_vibrant hv, fun hv => primaryRGB_of_no_vibrant hv⟩,
    ⟨fun h2 => secondaryRGB_of_two_vibrant h2,
     fun h2 hn => secondaryRGB_of_neutral h2 hn,
     fun h2 hn hl => secondaryRGB_of_two_colors h2 hn hl,
     fun h2 hn hl => secondaryRGB_of_single h2 hn hl⟩,
    ⟨fun h3 => accentRGB_of_three h3, fun he => accentRGB_of_two he,
     fun hlt => accentRGB_of_lt_two hlt⟩,
    rfl, rfl, rfl⟩

/-- Witness for C3 on a concrete mix of three vibrant samples (channel
spreads 200, 100, 50) and two neutral samples. -/
theorem classify_colors_roles_witness :
    (classify_colors [(210, 10, 10), (10, 110, 10), (10, 10, 60), (240, 240, 240),
        (10, 10, 10)]).primary
      = rgb_to_hex (primaryRGB [(210, 10, 10), (10, 110, 10), (10, 10, 60), (240, 240, 240),
        (10, 10, 10)]) ∧
    accentRGB [(210, 10, 10), (10, 110, 10), (10, 10, 60), (240, 240, 240), (10, 10, 10)]
      = (sortedVibrant [(210, 10, 10), (10, 110, 10), (10, 10, 60), (240, 240, 240),
          (10, 10, 10)]).getD 2 rgb0 ∧
    (classify_colors [(210, 10, 10), (10, 110, 10), (10, 10, 60), (240, 240, 240),
        (10, 10, 10)]).primary = "#D20A0A" ∧
    (classify_colors [(210, 10, 10), (10, 110, 10), (10, 10, 60), (240, 240, 240),
        (10, 10, 10)]).secondary = "#0A6E0A" ∧
    (classify_colors [(210, 10, 10), (10, 110, 10), (10, 10, 60), (240, 240, 240),
        (10, 10, 10)]).accent = "#0A0A3C" :=
  ⟨(classify_colors_roles _ (by decide)).2.2.2.1,
   (classify_colors_roles _ (by decide)).2.2.1.1 (by decide),
   by decide, by decide, by decide⟩

end Pomelli
